import Mathlib

/-!
Shallow embedding of the Basecamp Console core (`src/app.py`): the record
store (sqlite tables become lists of rows), session lifecycle, the evidence
ingestion engine, the timeline merge and the report assembler.  Machine
state (database plus the filesystem effects the claims mention) is passed
explicitly; fallible Python code (uncaught exceptions) is embedded with
`Except`/`Option`.  Python's stable `list.sort` is embedded as insertion
sort (`List.insertionSort`), which is the unique stable sort for a total
preorder, hence extensionally equal to CPython's Timsort on every input.
-/

namespace Basecamp

/-- A local timestamp at second resolution, as produced by
`datetime.now()` (`now_local` in the source).  Only the six fields the
program's format strings use are modelled. -/
structure DateTime where
  y : Nat
  mo : Nat
  d : Nat
  h : Nat
  mi : Nat
  s : Nat
deriving DecidableEq, Repr

/-- Zero-padding numeric format, Python's `f"{n:0wd}"`: pad the decimal
representation of `n` with leading zeros to at least `width` characters. -/
def padNum (width : Nat) (n : Nat) : String :=
  let s := toString n
  String.mk (List.replicate (width - s.length) '0') ++ s

/-- `fmt_ts` from the source: `dt.strftime("%Y-%m-%d %H:%M:%S")`. -/
def fmt_ts (t : DateTime) : String :=
  padNum 4 t.y ++ "-" ++ padNum 2 t.mo ++ "-" ++ padNum 2 t.d ++ " " ++
    padNum 2 t.h ++ ":" ++ padNum 2 t.mi ++ ":" ++ padNum 2 t.s

/-- The session-identifier format used by `create_session`:
`started.strftime("%Y%m%d_%H%M%S")`. -/
def sessionIdOf (t : DateTime) : String :=
  padNum 4 t.y ++ padNum 2 t.mo ++ padNum 2 t.d ++ "_" ++
    padNum 2 t.h ++ padNum 2 t.mi ++ padNum 2 t.s

/-- The date part used by `evidence_code_for`:
`strptime(started_at).strftime("%Y%m%d")`. -/
def fmtDate8 (t : DateTime) : String :=
  padNum 4 t.y ++ padNum 2 t.mo ++ padNum 2 t.d

/-- Python's `str.strip()`: drop whitespace from both ends (character
list form). -/
def pyStrip (cs : List Char) : List Char :=
  ((cs.dropWhile Char.isWhitespace).reverse.dropWhile Char.isWhitespace).reverse

/-- `str.strip()` on a string value. -/
def pyStripStr (s : String) : String := String.mk (pyStrip s.data)

/-- Python's `str.lower()` (ASCII scope, per-character). -/
def pyLower (s : String) : String := String.mk (s.data.map Char.toLower)

/-- Python's `str.upper()` (ASCII scope, per-character). -/
def pyUpper (s : String) : String := String.mk (s.data.map Char.toUpper)

/-- Python's `s.strip() or None` idiom used when inserting optional text
columns: blank strings are normalized to NULL. -/
def strOrNone (s : String) : Option String :=
  if pyStripStr s = "" then none else some (pyStripStr s)

/-- Same normalization applied to an optional input,
`(x or "").strip() or None`. -/
def optOrNone (s : Option String) : Option String :=
  strOrNone (s.getD "")

/-- A row of the `sessions` table.  The sqlite column `started_at` holds
`fmt_ts started_at`; since every writer of the column stores a `fmt_ts`
image and `fmt_ts` is injective on the timestamps the program produces,
the embedding keeps the structured timestamp and applies the formatter at
each read site (the source re-parses the string with `strptime` wherever
it needs the structured value back). -/
structure SessionRow where
  session_id : String
  started_at : DateTime
  ended_at : Option DateTime
  location : Option String
  notes : Option String
deriving DecidableEq, Repr

/-- A row of the `events` table; `created_at` is the `fmt_ts` string, used
by the program only as a lexicographic sort key and display text.  `tags`
is stored JSON-serialized in sqlite; the embedding keeps the list. -/
structure EventRow where
  id : Nat
  session_id : String
  created_at : String
  author : String
  title : String
  severity : Nat
  tags : List String
  room : Option String
  camera_label : Option String
deriving DecidableEq, Repr

/-- A row of the `logs` (notes) table. -/
structure LogRow where
  id : Nat
  session_id : String
  created_at : String
  mode : String
  author : String
  tags : List String
  text : String
  linked_event_id : Option Nat
deriving DecidableEq, Repr

/-- A row of the `evidence` table. -/
structure EvidenceRow where
  session_id : String
  created_at : String
  evidence_code : String
  original_name : String
  stored_name : String
  stored_path : String
  type : String
  captured_by : Option String
  device : Option String
  room : Option String
  description : Option String
  linked_event_id : Option Nat
deriving DecidableEq, Repr

/-- A row of the `equipment_log` table (`at` is a Lean keyword, hence
`at_ts`). -/
structure EquipmentLogRow where
  session_id : String
  gear_id : String
  action : String
  at_ts : String
  who : String
  battery : Option Nat
  condition_notes : Option String
deriving DecidableEq, Repr

/-- A row of the `tracker` table. -/
structure TrackerRow where
  session_id : String
  team_label : String
  location : String
  last_radio_call : Option String
  needs_support : Bool
deriving DecidableEq, Repr

/-- The record store: the per-session sqlite tables of `init_db` (the
static `equipment` catalog is not needed by any claim and is omitted). -/
structure DB where
  sessions : List SessionRow
  events : List EventRow
  logs : List LogRow
  evidence : List EvidenceRow
  equipment_log : List EquipmentLogRow
  tracker : List TrackerRow
deriving DecidableEq, Repr

/-- Append an evidence row, the effect of the `INSERT INTO evidence`
statement in `ingest_paths`. -/
def DB.insertEvidence (db : DB) (row : EvidenceRow) : DB :=
  { db with evidence := db.evidence ++ [row] }

/-- Errors surfaced to callers; `collision` stands for the
`sqlite3.IntegrityError` a duplicate PRIMARY KEY insert raises. -/
inductive DBError
  | collision
deriving DecidableEq, Repr

/-- `create_session`: derives the id from the current timestamp with
`strftime("%Y%m%d_%H%M%S")` and executes a plain `INSERT` into `sessions`,
whose `session_id` column is the PRIMARY KEY — sqlite refuses the insert
(raising `IntegrityError`) when a row with that key already exists, which
the embedding returns as `DBError.collision`. -/
def create_session (db : DB) (now : DateTime) (location notes : String) :
    Except DBError (DB × String) :=
  let sid := sessionIdOf now
  if db.sessions.any (fun r => r.session_id == sid) then
    Except.error DBError.collision
  else
    Except.ok
      ({ db with
          sessions := db.sessions ++
            [{ session_id := sid, started_at := now, ended_at := none,
               location := strOrNone location, notes := strOrNone notes }] },
        sid)

/-- `end_session`: `UPDATE sessions SET ended_at = ? WHERE session_id = ?`
(an UPDATE that matches no row is a no-op and raises nothing). -/
def end_session (db : DB) (now : DateTime) (sid : String) : DB :=
  { db with
      sessions := db.sessions.map (fun r =>
        if r.session_id == sid then { r with ended_at := some now } else r) }

/-- `next_evidence_counter`: `SELECT COUNT(*) FROM evidence WHERE
session_id = ?`, plus one. -/
def next_evidence_counter (db : DB) (sid : String) : Nat :=
  (db.evidence.filter (fun e => e.session_id == sid)).length + 1

/-- `evidence_code_for`: looks up the session's `started_at`, reformats it
to `%Y%m%d` and produces `f"{date_part}_{counter:04d}_{ev_type.upper()}"`.
A missing session row makes the Python code raise (indexing `None`), which
the embedding returns as `none`. -/
def evidence_code_for (db : DB) (sid : String) (ev_type : String) : Option String :=
  (db.sessions.find? (fun r => r.session_id == sid)).map (fun srow =>
    fmtDate8 srow.started_at ++ "_" ++ padNum 4 (next_evidence_counter db sid) ++
      "_" ++ pyUpper ev_type)

/-- The fixed extension-to-type table `EXT_TYPE`. -/
def EXT_TYPE : List (String × String) :=
  [(".wav", "AUDIO"), (".mp3", "AUDIO"), (".m4a", "AUDIO"), (".aac", "AUDIO"), (".flac", "AUDIO"),
   (".mp4", "VIDEO"), (".mov", "VIDEO"), (".mkv", "VIDEO"), (".avi", "VIDEO"), (".wmv", "VIDEO"),
   (".jpg", "PHOTO"), (".jpeg", "PHOTO"), (".png", "PHOTO"), (".heic", "PHOTO"), (".webp", "PHOTO"),
   (".pdf", "DOC"), (".txt", "DOC"), (".doc", "DOC"), (".docx", "DOC")]

/-- `pathlib.PurePath.suffix` on a bare file name: the substring from the
last dot, but only when that dot is neither the first nor the last
character (CPython: `i = name.rfind('.'); name[i:] if 0 < i < len(name)-1
else ''`). -/
def pathSuffix (name : String) : String :=
  let cs := name.data
  let n := cs.length
  let j := cs.reverse.findIdx (fun c => c == '.')
  if j = n then ""
  else
    let i := n - 1 - j
    if 0 < i ∧ i < n - 1 then String.mk (cs.drop i) else ""

/-- `detect_type_from_name`: lower-case the extension and look it up in
`EXT_TYPE`, defaulting to `"OTHER"`. -/
def detect_type_from_name (name : String) : String :=
  ((EXT_TYPE.lookup (pyLower (pathSuffix name))).getD "OTHER")

/-- The effective evidence type of `ingest_paths`: the caller's choice,
except that `"AUTO"` defers to extension detection. -/
def resolveType (ev_type_choice : String) (original_name : String) : String :=
  if ev_type_choice == "AUTO" then detect_type_from_name original_name else ev_type_choice

/-- The character class of the regex `\w` (ASCII scope: the program only
feeds it evidence codes and file extensions). -/
def isWordChar (c : Char) : Bool :=
  c.isAlphanum || c == '_'

/-- The character class kept by the first substitution of `safe_filename`,
`[^\w\-. ]` complemented. -/
def keepChar (c : Char) : Bool :=
  isWordChar c || c == '-' || c == '.' || c == ' '

/-- `re.sub(r"X+", repl, s)` for a single-character class `X`: each
maximal run of characters satisfying `bad` is replaced by the single
character `repl`. -/
def collapseRuns (bad : Char → Bool) (repl : Char) : List Char → List Char
  | [] => []
  | [c] => if bad c then [repl] else [c]
  | c :: c' :: cs =>
    if bad c then
      if bad c' then collapseRuns bad repl (c' :: cs)
      else repl :: collapseRuns bad repl (c' :: cs)
    else c :: collapseRuns bad repl (c' :: cs)

/-- `safe_filename`: strip, replace runs of characters outside
`[\w\-. ]` with `_`, collapse whitespace runs to `_`, truncate to 180
characters. -/
def safe_filename (name : String) : String :=
  let cs := pyStrip name.data
  let cs := collapseRuns (fun c => !keepChar c) '_' cs
  let cs := collapseRuns Char.isWhitespace '_' cs
  String.mk (cs.take 180)

/-- Modelled from the spec claim (for refinement comparison only): the
sanitization read literally from the spec sentence, where EVERY single
character outside alphanumerics, `-`, `.` and space is replaced by one
`_` (no run collapsing for non-whitespace), then whitespace runs are
collapsed and the result truncated to 180 characters. -/
def specSanitize (name : String) : String :=
  let cs := name.data.map (fun c => if keepChar c then c else '_')
  let cs := collapseRuns Char.isWhitespace '_' cs
  String.mk (cs.take 180)

/-- Sort key comparison used throughout: the `fmt_ts` timestamp string
compared lexicographically, exactly Python's string comparison (code-point
lexicographic, embedded as the lexicographic order on the character
list). -/
def keyLE {α : Type} (key : α → String) (a b : α) : Prop :=
  (key a).data ≤ (key b).data

/-- The reversed comparison, `sort(key=..., reverse=True)`. -/
def keyGE {α : Type} (key : α → String) (a b : α) : Prop :=
  (key b).data ≤ (key a).data

instance {α : Type} (key : α → String) : DecidableRel (keyLE key) :=
  fun a b => inferInstanceAs (Decidable ((key a).data ≤ (key b).data))

instance {α : Type} (key : α → String) : DecidableRel (keyGE key) :=
  fun a b => inferInstanceAs (Decidable ((key b).data ≤ (key a).data))

instance {α : Type} (key : α → String) : IsTotal α (keyLE key) :=
  ⟨fun a b => le_total (key a).data (key b).data⟩

instance {α : Type} (key : α → String) : IsTrans α (keyLE key) :=
  ⟨fun _ _ _ h1 h2 => le_trans h1 h2⟩

instance {α : Type} (key : α → String) : IsTotal α (keyGE key) :=
  ⟨fun a b => le_total (key b).data (key a).data⟩

instance {α : Type} (key : α → String) : IsTrans α (keyGE key) :=
  ⟨fun _ _ _ h1 h2 => le_trans h2 h1⟩

/-- Python's stable `list.sort(key=...)`, embedded as insertion sort
(stable sorting is unique, so this agrees with Timsort on every input);
also stands for sqlite's `ORDER BY` at the fetch sites. -/
def sortByKey {α : Type} (key : α → String) (l : List α) : List α :=
  List.insertionSort (keyLE key) l

/-- Python's stable `list.sort(key=..., reverse=True)`: entries with equal
keys KEEP their input order (Timsort reverses the comparison, not the
tie-breaking). -/
def sortByKeyDesc {α : Type} (key : α → String) (l : List α) : List α :=
  List.insertionSort (keyGE key) l

/-- A merged timeline entry `(timestamp, kind, rendered text)`. -/
structure TEntry where
  ts : String
  kind : String
  txt : String
deriving DecidableEq, Repr

/-- The ascending timeline merge of `generate_pdf_report`: the `merged`
list is built by appending all events and then all notes, and sorted with
`merged.sort(key=lambda t: t[0])`. -/
def mergeTimelineAsc (events notes : List TEntry) : List TEntry :=
  sortByKey TEntry.ts (events ++ notes)

/-- The descending timeline merge of `screen_dashboard` (live review):
events appended first, then notes, then
`merged.sort(key=lambda t: t[1], reverse=True)`. -/
def mergeTimelineDesc (events notes : List TEntry) : List TEntry :=
  sortByKeyDesc TEntry.ts (events ++ notes)

/-- The timeline text built for an event row in `generate_pdf_report`. -/
def renderEventEntry (e : EventRow) : TEntry :=
  let tags := String.intercalate ", " e.tags
  let extra := String.intercalate " — "
    ((([e.room, e.camera_label, some ("sev " ++ toString e.severity),
        some tags] : List (Option String)).filterMap id).filter (fun p => p != ""))
  ⟨e.created_at, "EVENT", e.title ++ (if extra != "" then " (" ++ extra ++ ")" else "")⟩

/-- The timeline text built for a note row in `generate_pdf_report`. -/
def renderLogEntry (l : LogRow) : TEntry :=
  let tags := String.intercalate ", " l.tags
  ⟨l.created_at, l.mode,
    l.author ++ ": " ++ l.text ++ (if tags != "" then " [tags: " ++ tags ++ "]" else "")⟩

/-- One drawn element of the report document: a section title
(`section_title`) or a body text handed to `draw_wrapped`.  Word wrapping
and pagination live in the abstract page-writer (out of the embedded
core), so the document is the ordered list of drawn logical items. -/
inductive ReportItem
  | title (text : String)
  | line (text : String)
deriving DecidableEq, Repr

/-- Machine state: the record store plus the filesystem effects the claims
mention (directories created, report documents written). -/
structure AppState where
  db : DB
  dirs : List String
  reports : List (String × List ReportItem)
deriving DecidableEq, Repr

/-- `SESSIONS_DIR / session_id`. -/
def sessionFolderPath (sid : String) : String := "data/sessions/" ++ sid

/-- The directories `get_session_folder` creates. -/
def sessionFolderDirs (sid : String) : List String :=
  [sessionFolderPath sid, sessionFolderPath sid ++ "/evidence",
   sessionFolderPath sid ++ "/reports"]

/-- The deterministic report path `reports/Report_{session_id}.pdf`. -/
def reportPathOf (sid : String) : String :=
  sessionFolderPath sid ++ "/reports/Report_" ++ sid ++ ".pdf"

/-- The stored path of an ingested evidence file. -/
def evidencePathOf (sid stored_name : String) : String :=
  sessionFolderPath sid ++ "/evidence/" ++ stored_name

/-- The Evidence List body of the report for one evidence row. -/
def renderEvidenceItems (ev : EvidenceRow) : List ReportItem :=
  let meta :=
    ((([ev.device.map (fun d => "Device: " ++ d),
        ev.room.map (fun r => "Room: " ++ r),
        ev.description.map (fun d => "Notes: " ++ d)] : List (Option String)).filterMap id))
  [ReportItem.line (ev.evidence_code ++ " — " ++ ev.type ++ " — " ++ ev.stored_name ++
      " — Captured by: " ++ ev.captured_by.getD "—")] ++
    (if meta.isEmpty then [] else [ReportItem.line (String.intercalate " | " meta)])

/-- The Equipment Usage body line for one activity row. -/
def renderEquipItem (r : EquipmentLogRow) : ReportItem :=
  ReportItem.line (r.at_ts ++ " — " ++ r.action ++ " — " ++ r.gear_id ++ " — " ++ r.who ++
    (match r.battery with
     | some b => " — battery " ++ toString b ++ "%"
     | none => "") ++
    (match r.condition_notes with
     | some cn => " — " ++ cn
     | none => ""))

/-- The Investigator Tracker body line for one tracker row. -/
def renderTrackerItem (t : TrackerRow) : ReportItem :=
  ReportItem.line (t.team_label ++ " — " ++ t.location ++ " — last radio: " ++
    t.last_radio_call.getD "—" ++ " — needs support: " ++
    (if t.needs_support then "YES" else "no"))

/-- `generate_pdf_report`: raises `ValueError("Session not found.")` when
no session row exists (embedded as `Except.error`, reached before any
directory or file is touched); otherwise creates the session folder,
renders the document and writes it to the deterministic report path. -/
def generate_pdf_report (st : AppState) (sid : String) :
    Except String (AppState × String) :=
  match st.db.sessions.find? (fun r => r.session_id == sid) with
  | none => Except.error "Session not found."
  | some session =>
    let logs := sortByKey LogRow.created_at
      (st.db.logs.filter (fun r => r.session_id == sid))
    let events := sortByKey EventRow.created_at
      (st.db.events.filter (fun r => r.session_id == sid))
    let evidence := sortByKey EvidenceRow.created_at
      (st.db.evidence.filter (fun r => r.session_id == sid))
    let equip := sortByKey EquipmentLogRow.at_ts
      (st.db.equipment_log.filter (fun r => r.session_id == sid))
    let tracker := sortByKey TrackerRow.team_label
      (st.db.tracker.filter (fun r => r.session_id == sid))
    let headerItems : List ReportItem :=
      [ReportItem.line "Investigation Report Draft",
       ReportItem.line ("Session ID: " ++ sid),
       ReportItem.line ("Started: " ++ fmt_ts session.started_at),
       ReportItem.line ("Ended: " ++ ((session.ended_at.map fmt_ts).getD "—")),
       ReportItem.line ("Location: " ++ (session.location.getD "—"))]
    let timeline := mergeTimelineAsc (events.map renderEventEntry) (logs.map renderLogEntry)
    let timelineItems := timeline.map
      (fun e => ReportItem.line (e.ts ++ " — " ++ e.kind ++ ": " ++ e.txt))
    let evidenceItems : List ReportItem :=
      if evidence.isEmpty then [ReportItem.line "No evidence logged."]
      else evidence.flatMap renderEvidenceItems
    let equipItems : List ReportItem :=
      if equip.isEmpty then [ReportItem.line "No equipment activity logged."]
      else equip.map renderEquipItem
    let trackerItems : List ReportItem :=
      if tracker.isEmpty then [ReportItem.line "No tracker entries."]
      else tracker.map renderTrackerItem
    let items :=
      headerItems ++
        [ReportItem.title "Timeline (Events + Notes)"] ++ timelineItems ++
        [ReportItem.title "Evidence List"] ++ evidenceItems ++
        [ReportItem.title "Equipment Usage"] ++ equipItems ++
        [ReportItem.title "Investigator Tracker"] ++ trackerItems
    Except.ok
      ({ st with
          dirs := st.dirs ++ sessionFolderDirs sid,
          reports := st.reports ++ [(reportPathOf sid, items)] },
        reportPathOf sid)

/-- The call site in `screen_wrap`: `try: generate_pdf_report(...) except
Exception: st.error(...)` — on failure the state is left as it was and no
path is produced. -/
def runGenerateReport (st : AppState) (sid : String) : AppState × Option String :=
  match generate_pdf_report st sid with
  | Except.error _ => (st, none)
  | Except.ok (st2, p) => (st2, some p)

/-- Splitting a character list on `.`, the semantics of
`str.split('.')`. -/
def splitDot : List Char → List (List Char)
  | [] => [[]]
  | c :: cs =>
    if c = '.' then [] :: splitDot cs
    else
      match splitDot cs with
      | [] => [[c]]
      | g :: gs => (c :: g) :: gs

/-- `pathlib.PurePath.suffixes` of a bare file name (CPython: empty for a
name ending in a dot, else split the name with leading dots removed on
`.` and re-prefix every component after the first). -/
def pathSuffixes (name : String) : List String :=
  if name.data.getLast? == some '.' then []
  else
    let stripped := name.data.dropWhile (fun c => c == '.')
    ((splitDot stripped).drop 1).map (fun g => String.mk ('.' :: g))

/-- One candidate file handed to the ingestion engine.  The filesystem
outcomes the Python code observes (existence/regularity, success of
`write_bytes(read_bytes())`, success of the `shutil.copy2` fallback) are
the file's environment and appear as fields. -/
structure FileRef where
  path : String
  name : String
  isRegularFile : Bool
  primaryCopyOk : Bool
  fallbackCopyOk : Bool
deriving DecidableEq, Repr

/-- The byte copy succeeds when the primary `write_bytes(read_bytes())`
or the `shutil.copy2` fallback succeeds. -/
def copySucceeds (p : FileRef) : Bool := p.primaryCopyOk || p.fallbackCopyOk

/-- The per-batch metadata arguments of `ingest_paths`. -/
structure IngestMeta where
  ev_type_choice : String
  captured_by_val : Option String
  device : Option String
  room : Option String
  desc : Option String
  linked_event_id : Option Nat
deriving DecidableEq, Repr

/-- The evidence row `ingest_paths` inserts for file `p` under evidence
code `code`: the resolved type, the sanitized stored name, the stored
path, and the batch metadata with blank optional strings normalized to
NULL. -/
def mkEvidenceRow (now : DateTime) (sid : String) (meta : IngestMeta)
    (p : FileRef) (code : String) : EvidenceRow :=
  let ev_type := resolveType meta.ev_type_choice p.name
  let stored_name := safe_filename (code ++ String.join (pathSuffixes p.name))
  { session_id := sid, created_at := fmt_ts now, evidence_code := code,
    original_name := p.name, stored_name := stored_name,
    stored_path := evidencePathOf sid stored_name, type := ev_type,
    captured_by := meta.captured_by_val, device := optOrNone meta.device,
    room := optOrNone meta.room, description := optOrNone meta.desc,
    linked_event_id := meta.linked_event_id }

/-- The loop body of `ingest_paths`, one file at a time in input order:
skip silently when the reference is not an existing regular file; resolve
the type; compute the evidence code (a missing session row would make the
Python code raise, aborting the batch — `Except.error`); sanitize the
stored name; skip the file when both copy attempts fail; otherwise insert
the evidence row and count it. -/
def ingestLoop (now : DateTime) (sid : String) (meta : IngestMeta) :
    DB → Nat → List FileRef → Except String (DB × Nat)
  | db, n, [] => Except.ok (db, n)
  | db, n, p :: rest =>
    if p.isRegularFile then
      match evidence_code_for db sid (resolveType meta.ev_type_choice p.name) with
      | none => Except.error "TypeError: session row missing"
      | some code =>
        if copySucceeds p then
          ingestLoop now sid meta
            (db.insertEvidence (mkEvidenceRow now sid meta p code)) (n + 1) rest
        else ingestLoop now sid meta db n rest
    else ingestLoop now sid meta db n rest

/-- `ingest_paths`: fold the loop over the batch, returning the count of
files actually stored and recorded. -/
def ingest_paths (db : DB) (now : DateTime) (sid : String) (files : List FileRef)
    (meta : IngestMeta) : Except String (DB × Nat) :=
  ingestLoop now sid meta db 0 files

/-- One step of the watch loop body: `key = str(f.resolve()); if key not
in seen: new_files.append(f); seen.add(key)`.  Files are identified by
their resolved absolute path string. -/
def tickFold (acc : List String × List String) (f : String) :
    List String × List String :=
  if f ∈ acc.1 then acc else (f :: acc.1, acc.2 ++ [f])

/-- One watch tick over a folder scan: returns the grown `seen` set and
the newly discovered files handed to `ingest_paths`, in scan order. -/
def watch_tick (seen scanned : List String) : List String × List String :=
  scanned.foldl tickFold (seen, [])

/-- A sequence of watch ticks: feed each scan result in turn, threading
the `seen` set, and collect each tick's newly ingested files. -/
def watch_run (seen : List String) : List (List String) → List (List String)
  | [] => []
  | scan :: rest =>
    let t := watch_tick seen scan
    t.2 :: watch_run t.1 rest

/-! Concrete fixtures used by witnesses and counterexamples. -/

/-- A fixed clock reading. -/
def exNow : DateTime := ⟨2026, 1, 2, 13, 5, 9⟩

/-- A later clock reading in the same session. -/
def exLater : DateTime := ⟨2026, 1, 2, 14, 0, 0⟩

/-- The session id `exNow` derives. -/
def exSid : String := "20260102_130509"

/-- The session row `create_session` persists at `exNow`. -/
def exSessionRow : SessionRow :=
  { session_id := exSid, started_at := exNow, ended_at := none,
    location := none, notes := none }

/-- An empty record store. -/
def exDB0 : DB :=
  { sessions := [], events := [], logs := [], evidence := [],
    equipment_log := [], tracker := [] }

/-- A store holding exactly one fresh session and nothing else. -/
def exDB : DB :=
  { sessions := [exSessionRow], events := [], logs := [], evidence := [],
    equipment_log := [], tracker := [] }

/-- Machine state over `exDB` with a pristine filesystem. -/
def exStateEmpty : AppState := { db := exDB, dirs := [], reports := [] }

/-- The document produced for the empty session `exSid`. -/
def exEmptyReportItems : List ReportItem :=
  [ReportItem.line "Investigation Report Draft",
   ReportItem.line "Session ID: 20260102_130509",
   ReportItem.line "Started: 2026-01-02 13:05:09",
   ReportItem.line "Ended: —",
   ReportItem.line "Location: —",
   ReportItem.title "Timeline (Events + Notes)",
   ReportItem.title "Evidence List",
   ReportItem.line "No evidence logged.",
   ReportItem.title "Equipment Usage",
   ReportItem.line "No equipment activity logged.",
   ReportItem.title "Investigator Tracker",
   ReportItem.line "No tracker entries."]

/-- A timeline event entry and a note entry carrying the same timestamp. -/
def exTieEvent : TEntry := ⟨"2026-01-02 21:00:00", "EVENT", "shadow movement"⟩

/-- The tied note entry (appended after the event at both call sites). -/
def exTieNote : TEntry := ⟨"2026-01-02 21:00:00", "QUICK", "Lead: all quiet"⟩

/-- A readable regular file whose name holds a run of two `#`
characters inside its extension. -/
def exHashFile : FileRef :=
  { path := "/sd/x.c##1", name := "x.c##1", isRegularFile := true,
    primaryCopyOk := true, fallbackCopyOk := false }

/-- A readable regular file with an upper-case video extension. -/
def exClipFile : FileRef :=
  { path := "/sd/clip.MP4", name := "clip.MP4", isRegularFile := true,
    primaryCopyOk := true, fallbackCopyOk := false }

/-- A file reference that does not resolve to a regular file. -/
def exGhostFile : FileRef :=
  { path := "/sd/gone.wav", name := "gone.wav", isRegularFile := false,
    primaryCopyOk := false, fallbackCopyOk := false }

/-- A regular file whose byte copy fails in both attempts. -/
def exBadCopyFile : FileRef :=
  { path := "/sd/big.mov", name := "big.mov", isRegularFile := true,
    primaryCopyOk := false, fallbackCopyOk := false }

/-- Batch metadata: automatic type detection, no optional fields. -/
def exMeta : IngestMeta :=
  { ev_type_choice := "AUTO", captured_by_val := none, device := none,
    room := none, desc := none, linked_event_id := none }

/-- A timeline event entry strictly earlier than `exLateNote`. -/
def exEarlyEvent : TEntry := ⟨"2026-01-02 20:00:00", "EVENT", "loud knock"⟩

/-- A timeline note entry strictly later than `exEarlyEvent`. -/
def exLateNote : TEntry := ⟨"2026-01-02 22:00:00", "QUICK", "Lead: wrapping up"⟩

/-! Helper lemmas. -/

set_option maxHeartbeats 1600000 in
theorem tick_mem_aux (scanned : List String) : ∀ (seen nf : List String) (f : String),
    (f ∈ (scanned.foldl tickFold (seen, nf)).1 ↔ f ∈ seen ∨ f ∈ scanned) ∧
    (f ∈ (scanned.foldl tickFold (seen, nf)).2 ↔ f ∈ nf ∨ (f ∈ scanned ∧ f ∉ seen)) := by
  induction scanned with
  | nil => intro seen nf f; simp
  | cons g rest ih =>
    intro seen nf f
    simp only [List.foldl_cons, tickFold]
    by_cases hg : g ∈ seen
    · rw [if_pos hg]
      have h := ih seen nf f
      by_cases hfg : f = g
      · subst hfg
        constructor
        · rw [h.1]; simp only [List.mem_cons]; tauto
        · rw [h.2]; simp only [List.mem_cons]; tauto
      · constructor
        · rw [h.1]; simp only [List.mem_cons]; tauto
        · rw [h.2]; simp only [List.mem_cons]; tauto
    · rw [if_neg hg]
      have h := ih (g :: seen) (nf ++ [g]) f
      by_cases hfg : f = g
      · subst hfg
        constructor
        · rw [h.1]; simp only [List.mem_cons, List.mem_append, List.mem_singleton]; tauto
        · rw [h.2]; simp only [List.mem_cons, List.mem_append, List.mem_singleton]; tauto
      · constructor
        · rw [h.1]; simp only [List.mem_cons, List.mem_append, List.mem_singleton]; tauto
        · rw [h.2]; simp only [List.mem_cons, List.mem_append, List.mem_singleton]; tauto

theorem watch_tick_mem (seen scanned : List String) (f : String) :
    (f ∈ (watch_tick seen scanned).1 ↔ f ∈ seen ∨ f ∈ scanned) ∧
    (f ∈ (watch_tick seen scanned).2 ↔ f ∈ scanned ∧ f ∉ seen) := by
  have h := tick_mem_aux scanned seen [] f
  refine ⟨h.1, h.2.trans ?_⟩
  simp

theorem watch_run_no_reingest (scans : List (List String)) :
    ∀ (seen : List String) (f : String), f ∈ seen →
      ∀ nf ∈ watch_run seen scans, f ∉ nf := by
  induction scans with
  | nil => intro seen f _ nf hnf; simp [watch_run] at hnf
  | cons scan rest ih =>
    intro seen f hf nf hnf
    simp only [watch_run, List.mem_cons] at hnf
    rcases hnf with rfl | hnf
    · intro hmem
      exact ((watch_tick_mem seen scan f).2.mp hmem).2 hf
    · exact ih (watch_tick seen scan).1 f
        ((watch_tick_mem seen scan f).1.mpr (Or.inl hf)) nf hnf

theorem mem_collapseRuns (bad : Char → Bool) (repl : Char) :
    ∀ (l : List Char) (c : Char), c ∈ collapseRuns bad repl l →
      c = repl ∨ (c ∈ l ∧ bad c = false)
  | [], c, h => by simp [collapseRuns] at h
  | [a], c, h => by
    simp only [collapseRuns] at h
    by_cases hb : bad a
    · rw [if_pos hb] at h
      exact Or.inl (List.mem_singleton.mp h)
    · rw [if_neg hb] at h
      have hc := List.mem_singleton.mp h
      subst hc
      exact Or.inr ⟨List.mem_singleton_self c, Bool.not_eq_true _ ▸ hb⟩
  | a :: a' :: l, c, h => by
    simp only [collapseRuns] at h
    by_cases hb : bad a
    · rw [if_pos hb] at h
      by_cases hb' : bad a'
      · rw [if_pos hb'] at h
        rcases mem_collapseRuns bad repl (a' :: l) c h with h1 | h1
        · exact Or.inl h1
        · exact Or.inr ⟨List.mem_cons_of_mem a h1.1, h1.2⟩
      · rw [if_neg hb'] at h
        rcases List.mem_cons.mp h with rfl | h2
        · exact Or.inl rfl
        · rcases mem_collapseRuns bad repl (a' :: l) c h2 with h1 | h1
          · exact Or.inl h1
          · exact Or.inr ⟨List.mem_cons_of_mem a h1.1, h1.2⟩
    · rw [if_neg hb] at h
      rcases List.mem_cons.mp h with rfl | h2
      · exact Or.inr ⟨List.mem_cons_self c _, Bool.not_eq_true _ ▸ hb⟩
      · rcases mem_collapseRuns bad repl (a' :: l) c h2 with h1 | h1
        · exact Or.inl h1
        · exact Or.inr ⟨List.mem_cons_of_mem a h1.1, h1.2⟩

theorem safe_filename_no_space_no_hash (s : String) :
    ' ' ∉ (safe_filename s).data ∧ '#' ∉ (safe_filename s).data := by
  constructor <;> intro hmem
  · have h1 : ' ' ∈ collapseRuns Char.isWhitespace '_'
        (collapseRuns (fun c => !keepChar c) '_' (pyStrip s.data)) :=
      List.take_subset 180 _ hmem
    rcases mem_collapseRuns _ _ _ _ h1 with h2 | h2
    · exact absurd h2 (by decide)
    · exact absurd h2.2 (by decide)
  · have h1 : '#' ∈ collapseRuns Char.isWhitespace '_'
        (collapseRuns (fun c => !keepChar c) '_' (pyStrip s.data)) :=
      List.take_subset 180 _ hmem
    rcases mem_collapseRuns _ _ _ _ h1 with h2 | h2
    · exact absurd h2 (by decide)
    · rcases mem_collapseRuns _ _ _ _ h2.1 with h3 | h3
      · exact absurd h3 (by decide)
      · exact absurd h3.2 (by decide)

theorem filter_key_orderedInsert {α : Type} (key : α → String) (r : α → α → Prop)
    [DecidableRel r] (hpne : ∀ a b : α, ¬ r a b → key a ≠ key b)
    (a : α) (l : List α) (t : String) :
    (List.orderedInsert r a l).filter (fun x => key x == t) =
      if key a == t then a :: l.filter (fun x => key x == t)
      else l.filter (fun x => key x == t) := by
  induction l with
  | nil => simp [List.orderedInsert, List.filter_cons]
  | cons b l ih =>
    by_cases hab : r a b
    · rw [List.orderedInsert_of_le r l hab, List.filter_cons]
    · simp only [List.orderedInsert, if_neg hab]
      rw [List.filter_cons, ih]
      have hne := hpne a b hab
      by_cases hat : key a = t
      · have hbt : ¬ key b = t := fun hb => hne (hat.trans hb.symm)
        simp [beq_iff_eq, hat, hbt, List.filter_cons]
      · simp [beq_iff_eq, hat, List.filter_cons]

theorem filter_key_insertionSort {α : Type} (key : α → String) (r : α → α → Prop)
    [DecidableRel r] (hpne : ∀ a b : α, ¬ r a b → key a ≠ key b)
    (l : List α) (t : String) :
    (List.insertionSort r l).filter (fun x => key x == t) =
      l.filter (fun x => key x == t) := by
  induction l with
  | nil => rfl
  | cons a l ih =>
    simp only [List.insertionSort]
    rw [filter_key_orderedInsert key r hpne, ih, List.filter_cons]

theorem keyLE_not_imp_ne {α : Type} (key : α → String) (a b : α)
    (h : ¬ keyLE key a b) : key a ≠ key b := fun he => h (le_of_eq (by rw [he]))

theorem keyGE_not_imp_ne {α : Type} (key : α → String) (a b : α)
    (h : ¬ keyGE key a b) : key a ≠ key b := fun he => h (le_of_eq (by rw [he]))

theorem sortByKeyDesc_eq_reverse {α : Type} (key : α → String) (l : List α)
    (hd : l.Pairwise (fun a b => key a ≠ key b)) :
    sortByKeyDesc key l = (sortByKey key l).reverse := by
  have pasc : List.Perm (List.insertionSort (keyLE key) l) l := List.perm_insertionSort _ l
  have pdesc : List.Perm (List.insertionSort (keyGE key) l) l := List.perm_insertionSort _ l
  have sasc : List.Sorted (keyLE key) (List.insertionSort (keyLE key) l) :=
    List.sorted_insertionSort _ l
  have sdesc : List.Sorted (keyGE key) (List.insertionSort (keyGE key) l) :=
    List.sorted_insertionSort _ l
  have hsym : ∀ {x y : α}, key x ≠ key y → key y ≠ key x := fun hab => hab.symm
  have hdd : (List.insertionSort (keyGE key) l).Pairwise (fun a b => key a ≠ key b) :=
    (List.Perm.pairwise_iff hsym pdesc).mpr hd
  have hda : (List.insertionSort (keyLE key) l).Pairwise (fun a b => key a ≠ key b) :=
    (List.Perm.pairwise_iff hsym pasc).mpr hd
  have hstep : ∀ a b : α, (keyGE key a b ∧ key a ≠ key b) → (key b).data < (key a).data := by
    intro a b h
    exact lt_of_le_of_ne h.1 (fun e => h.2 (String.ext e).symm)
  haveI : IsAntisymm α (fun a b : α => (key b).data < (key a).data) :=
    ⟨fun _ _ h1 h2 => (lt_asymm h1 h2).elim⟩
  have s1 : List.Sorted (fun a b : α => (key b).data < (key a).data)
      (List.insertionSort (keyGE key) l) :=
    List.Pairwise.imp (fun h => hstep _ _ h) (List.Pairwise.and sdesc hdd)
  have s2 : List.Sorted (fun a b : α => (key b).data < (key a).data)
      ((List.insertionSort (keyLE key) l).reverse) := by
    rw [List.Sorted, List.pairwise_reverse]
    exact List.Pairwise.imp (fun h => hstep _ _ ⟨h.1, h.2.symm⟩)
      (List.Pairwise.and sasc hda)
  have p3 : List.Perm (List.insertionSort (keyGE key) l)
      ((List.insertionSort (keyLE key) l).reverse) :=
    pdesc.trans (pasc.symm.trans (List.reverse_perm _).symm)
  exact List.eq_of_perm_of_sorted p3 s1 s2

theorem ingestLoop_ok (files : List FileRef) :
    ∀ (db : DB) (n : Nat) (now : DateTime) (sid : String) (meta : IngestMeta)
      (srow : SessionRow),
      db.sessions.find? (fun r => r.session_id == sid) = some srow →
      ∃ db', ingestLoop now sid meta db n files =
          Except.ok (db',
            n + (files.filter (fun p => p.isRegularFile && copySucceeds p)).length) ∧
        db'.evidence.length = db.evidence.length +
          (files.filter (fun p => p.isRegularFile && copySucceeds p)).length ∧
        db'.sessions = db.sessions ∧ db'.events = db.events ∧ db'.logs = db.logs ∧
        db'.equipment_log = db.equipment_log ∧ db'.tracker = db.tracker := by
  induction files with
  | nil =>
    intro db n now sid meta srow h
    exact ⟨db, by simp [ingestLoop], by simp, rfl, rfl, rfl, rfl, rfl⟩
  | cons p rest ih =>
    intro db n now sid meta srow h
    by_cases hreg : p.isRegularFile = true
    · by_cases hcopy : copySucceeds p = true
      · obtain ⟨db', heq, hlen, hs, he, hl, hq, ht⟩ :=
          ih (db.insertEvidence (mkEvidenceRow now sid meta p
              (fmtDate8 srow.started_at ++ "_" ++ padNum 4 (next_evidence_counter db sid) ++
                "_" ++ pyUpper (resolveType meta.ev_type_choice p.name))))
            (n + 1) now sid meta srow h
        refine ⟨db', ?_, ?_, hs, he, hl, hq, ht⟩
        · rw [show ingestLoop now sid meta db n (p :: rest) =
              ingestLoop now sid meta (db.insertEvidence (mkEvidenceRow now sid meta p
                (fmtDate8 srow.started_at ++ "_" ++ padNum 4 (next_evidence_counter db sid) ++
                  "_" ++ pyUpper (resolveType meta.ev_type_choice p.name)))) (n + 1) rest from by
            simp [ingestLoop, hreg, hcopy, evidence_code_for, h]]
          rw [heq]
          have harith : n + 1 +
              (rest.filter (fun p => p.isRegularFile && copySucceeds p)).length =
              n + ((p :: rest).filter (fun p => p.isRegularFile && copySucceeds p)).length := by
            simp [List.filter_cons, hreg, hcopy]
            omega
          rw [harith]
        · rw [hlen]
          simp [DB.insertEvidence, List.filter_cons, hreg, hcopy]
          omega
      · obtain ⟨db', heq, hlen, hs, he, hl, hq, ht⟩ := ih db n now sid meta srow h
        refine ⟨db', ?_, ?_, hs, he, hl, hq, ht⟩
        · rw [show ingestLoop now sid meta db n (p :: rest) =
              ingestLoop now sid meta db n rest from by
            simp [ingestLoop, hreg, hcopy, evidence_code_for, h]]
          rw [heq]
          have harith : (rest.filter (fun p => p.isRegularFile && copySucceeds p)).length =
              ((p :: rest).filter (fun p => p.isRegularFile && copySucceeds p)).length := by
            simp [List.filter_cons, hreg, hcopy]
          rw [harith]
        · rw [hlen]
          simp [List.filter_cons, hreg, hcopy]
    · obtain ⟨db', heq, hlen, hs, he, hl, hq, ht⟩ := ih db n now sid meta srow h
      refine ⟨db', ?_, ?_, hs, he, hl, hq, ht⟩
      · rw [show ingestLoop now sid meta db n (p :: rest) =
            ingestLoop now sid meta db n rest from by
          simp [ingestLoop, hreg]]
        rw [heq]
        have harith : (rest.filter (fun p => p.isRegularFile && copySucceeds p)).length =
            ((p :: rest).filter (fun p => p.isRegularFile && copySucceeds p)).length := by
          simp [List.filter_cons, hreg]
        rw [harith]
      · rw [hlen]
        simp [List.filter_cons, hreg]

/-! Claim theorems. -/

/-- C3: on a watch tick, exactly the scanned files whose resolved path is
not yet in `seen` are handed to ingestion; afterwards `seen` holds every
discovered path (old and new) on top of what it already held; a tick whose
scan only finds already-seen paths ingests nothing; and across any
sequence of ticks a path that is in `seen` is never ingested again. -/
theorem C3_watch_dedup (seen scanned : List String) :
    (∀ f, f ∈ (watch_tick seen scanned).2 ↔ f ∈ scanned ∧ f ∉ seen) ∧
    (∀ f, f ∈ (watch_tick seen scanned).1 ↔ f ∈ seen ∨ f ∈ scanned) ∧
    ((∀ f ∈ scanned, f ∈ seen) → (watch_tick seen scanned).2 = []) ∧
    (∀ (scans : List (List String)) (f : String), f ∈ seen →
      ∀ nf ∈ watch_run seen scans, f ∉ nf) := by
  refine ⟨fun f => (watch_tick_mem seen scanned f).2,
    fun f => (watch_tick_mem seen scanned f).1, ?_, ?_⟩
  · intro hsub
    apply List.eq_nil_iff_forall_not_mem.mpr
    intro f hf
    have hm := (watch_tick_mem seen scanned f).2.mp hf
    exact hm.2 (hsub f hm.1)
  · intro scans f hf nf hnf
    exact watch_run_no_reingest scans seen f hf nf hnf

/-- Witness for C3 at a concrete run: seen = `a`, scan finds `a` and `b`:
only `b` is ingested; a re-tick after both are seen ingests nothing; and
a two-tick run never re-ingests `a`. -/
theorem C3_watch_dedup_witness :
    "b" ∈ (watch_tick ["a"] ["a", "b"]).2 ∧
    "a" ∉ (watch_tick ["a"] ["a", "b"]).2 ∧
    (watch_tick ["a", "b"] ["a", "b"]).2 = [] ∧
    ∀ nf ∈ watch_run ["a"] [["a", "b"], ["a", "b"]], "a" ∉ nf := by
  have h1 := C3_watch_dedup ["a"] ["a", "b"]
  have h2 := C3_watch_dedup ["a", "b"] ["a", "b"]
  refine ⟨(h1.1 "b").mpr ⟨by decide, by decide⟩,
    fun hmem => ((h1.1 "a").mp hmem).2 (by decide),
    h2.2.2.1 (by decide),
    h1.2.2.2 [["a", "b"], ["a", "b"]] "a" (by decide)⟩

/-- C4: `create_session` derives the identifier from the current
timestamp at second resolution (`YYYYMMDD_HHMMSS`); the insert fails with
the collision error exactly when a session row with that identifier
already exists (never silently overwriting it — on success the previous
rows are kept unchanged and the new row is appended); and distinctness of
all persisted `session_id` values is preserved. -/
theorem C4_create_session (db : DB) (now : DateTime) (loc nts : String) :
    (create_session db now loc nts = Except.error DBError.collision ↔
      ∃ r ∈ db.sessions, r.session_id = sessionIdOf now) ∧
    (∀ db' sid, create_session db now loc nts = Except.ok (db', sid) →
      sid = sessionIdOf now ∧
      db'.sessions = db.sessions ++
        [{ session_id := sessionIdOf now, started_at := now, ended_at := none,
           location := strOrNone loc, notes := strOrNone nts }] ∧
      ((db.sessions.map (fun r => r.session_id)).Nodup →
        (db'.sessions.map (fun r => r.session_id)).Nodup)) := by
  by_cases hc : db.sessions.any (fun r => r.session_id == sessionIdOf now) = true
  · constructor
    · constructor
      · intro _
        simpa [List.any_eq_true, beq_iff_eq] using hc
      · intro _
        simp [create_session, hc]
    · intro db' sid heq
      simp [create_session, hc] at heq
  · have hnc : ¬ ∃ r ∈ db.sessions, r.session_id = sessionIdOf now := by
      simpa [List.any_eq_true, beq_iff_eq] using hc
    constructor
    · constructor
      · intro hfalse
        simp [create_session, hc] at hfalse
      · intro hex
        exact absurd hex hnc
    · intro db' sid heq
      simp only [create_session, hc, Bool.false_eq_true, if_false, Except.ok.injEq,
        Prod.mk.injEq] at heq
      obtain ⟨hdb, hsid⟩ := heq
      refine ⟨hsid.symm, ?_, ?_⟩
      · rw [← hdb]
      · intro hnd
        rw [← hdb]
        simp only [List.map_append, List.map_cons, List.map_nil]
        rw [List.nodup_append]
        refine ⟨hnd, List.nodup_singleton _, ?_⟩
        intro x hx hx1
        simp only [List.mem_singleton] at hx1
        subst hx1
        obtain ⟨r, hr, hrid⟩ := List.mem_map.mp hx
        exact hnc ⟨r, hr, hrid⟩

/-- Witness for C4: creating a session over an empty store succeeds with
the formatted identifier, appends exactly one row, keeps identifiers
nodup; creating again at the same second collides. -/
theorem C4_create_session_witness :
    (create_session exDB0 exNow "HQ" "" =
      Except.ok ({ exDB0 with
        sessions := [⟨exSid, exNow, none, some "HQ", none⟩] }, exSid)) ∧
    ((([⟨exSid, exNow, none, some "HQ", none⟩] : List SessionRow).map
          (fun r => r.session_id)).Nodup) ∧
    (create_session exDB exNow "" "" = Except.error DBError.collision) := by
  have h1 := (C4_create_session exDB0 exNow "HQ" "").2
  have h2 := (C4_create_session exDB exNow "" "").1
  refine ⟨by rfl, ?_, ?_⟩
  · have h3 := h1 _ _ (by rfl)
    exact by decide
  · exact h2.mpr ⟨exSessionRow, by decide, by decide⟩

/-- C8: with type choice AUTO the effective evidence type comes
case-insensitively from the file extension through the fixed table, any
unknown extension giving OTHER (`clip.MP4` gives VIDEO, `.xyz` gives
OTHER); with any other choice the caller's type is used verbatim. -/
theorem C8_type_detection :
    (∀ choice name, choice ≠ "AUTO" → resolveType choice name = choice) ∧
    (∀ name, resolveType "AUTO" name =
      (EXT_TYPE.lookup (pyLower (pathSuffix name))).getD "OTHER") ∧
    resolveType "AUTO" "clip.MP4" = "VIDEO" ∧
    resolveType "AUTO" "shot.xyz" = "OTHER" ∧
    (∀ e ∈ (["wav", "mp3", "m4a", "aac", "flac"] : List String),
      detect_type_from_name ("f." ++ e) = "AUDIO") ∧
    (∀ e ∈ (["mp4", "mov", "mkv", "avi", "wmv"] : List String),
      detect_type_from_name ("f." ++ e) = "VIDEO") ∧
    (∀ e ∈ (["jpg", "jpeg", "png", "heic", "webp"] : List String),
      detect_type_from_name ("f." ++ e) = "PHOTO") ∧
    (∀ e ∈ (["pdf", "txt", "doc", "docx"] : List String),
      detect_type_from_name ("f." ++ e) = "DOC") := by
  refine ⟨?_, fun name => rfl, by decide, by decide, by decide, by decide, by decide,
    by decide⟩
  intro choice name hne
  simp [resolveType, beq_iff_eq, hne]

/-- Witness for C8: a non-AUTO choice is kept verbatim even against a
video extension, and AUTO detects VIDEO from an upper-case extension. -/
theorem C8_type_detection_witness :
    resolveType "PHOTO" "clip.mp4" = "PHOTO" ∧ resolveType "AUTO" "clip.MP4" = "VIDEO" := by
  have h := C8_type_detection
  exact ⟨h.1 "PHOTO" "clip.mp4" (by decide), h.2.2.1⟩

/-- C10: `end_session` touches only the `sessions` table, replacing the
matching row's `ended_at` with the new current time and leaving every
other field and every non-matching row as they were; with no matching row
the store is unchanged (and nothing is raised, the update being total);
re-ending overwrites `ended_at` with the later time. -/
theorem C10_end_session (db : DB) (now : DateTime) (sid : String) :
    (end_session db now sid).sessions =
      db.sessions.map (fun r =>
        if r.session_id == sid then { r with ended_at := some now } else r) ∧
    (end_session db now sid).events = db.events ∧
    (end_session db now sid).logs = db.logs ∧
    (end_session db now sid).evidence = db.evidence ∧
    (end_session db now sid).equipment_log = db.equipment_log ∧
    (end_session db now sid).tracker = db.tracker ∧
    ((∀ r ∈ db.sessions, r.session_id ≠ sid) → end_session db now sid = db) ∧
    (∀ now2, end_session (end_session db now sid) now2 sid = end_session db now2 sid) := by
  refine ⟨rfl, rfl, rfl, rfl, rfl, rfl, ?_, ?_⟩
  · intro hne
    have hmap : db.sessions.map (fun r =>
        if r.session_id == sid then { r with ended_at := some now } else r) =
        db.sessions := by
      have h1 : db.sessions.map (fun r =>
          if r.session_id == sid then { r with ended_at := some now } else r) =
          db.sessions.map id := by
        apply List.map_congr_left
        intro r hr
        have : (r.session_id == sid) = false := by
          simpa [beq_iff_eq] using hne r hr
        simp [this]
      rw [h1, List.map_id]
    cases db
    simp only [end_session] at hmap ⊢
    rw [hmap]
  · intro now2
    cases db
    simp only [end_session, List.map_map]
    congr 1
    apply List.map_congr_left
    intro r _
    by_cases hr : (r.session_id == sid) = true
    · simp [Function.comp, hr]
    · simp [Function.comp, hr]

/-- Witness for C10: ending a missing session over the one-session store
leaves it untouched, and re-ending overwrites the timestamp. -/
theorem C10_end_session_witness :
    end_session exDB exNow "nope" = exDB ∧
    end_session (end_session exDB exNow exSid) exLater exSid =
      end_session exDB exLater exSid := by
  have h := C10_end_session exDB exNow "nope"
  have h2 := C10_end_session exDB exNow exSid
  exact ⟨h.2.2.2.2.2.2.1 (by decide), h2.2.2.2.2.2.2.2 exLater⟩

/-- C1: the evidence code is the session's start date (`YYYYMMDD`, taken
from the stored `started_at`, with no dependence on the ingestion clock),
an underscore, the zero-padded value of one plus the count of evidence
rows already stored for the session (one shared per-session sequence,
blind to the row types), an underscore, and the upper-cased resolved
type; inserting an evidence row for the session — whatever its type —
bumps the next counter by exactly one, and rows of other sessions leave
it unchanged; ingesting a storable file records a row carrying exactly
this code. -/
theorem C1_evidence_code (db : DB) (sid ty : String) (srow : SessionRow)
    (h : db.sessions.find? (fun r => r.session_id == sid) = some srow) :
    evidence_code_for db sid ty =
      some (fmtDate8 srow.started_at ++ "_" ++
        padNum 4 ((db.evidence.filter (fun e => e.session_id == sid)).length + 1) ++
        "_" ++ pyUpper ty) ∧
    next_evidence_counter db sid =
      (db.evidence.filter (fun e => e.session_id == sid)).length + 1 ∧
    (∀ row : EvidenceRow, row.session_id = sid →
      next_evidence_counter (db.insertEvidence row) sid =
        next_evidence_counter db sid + 1) ∧
    (∀ row : EvidenceRow, row.session_id ≠ sid →
      next_evidence_counter (db.insertEvidence row) sid = next_evidence_counter db sid) ∧
    (∀ (p : FileRef) (meta : IngestMeta) (now : DateTime),
      p.isRegularFile = true → copySucceeds p = true →
      ingest_paths db now sid [p] meta = Except.ok
        (db.insertEvidence (mkEvidenceRow now sid meta p
          (fmtDate8 srow.started_at ++ "_" ++ padNum 4 (next_evidence_counter db sid) ++
            "_" ++ pyUpper (resolveType meta.ev_type_choice p.name))), 1) ∧
      (mkEvidenceRow now sid meta p
          (fmtDate8 srow.started_at ++ "_" ++ padNum 4 (next_evidence_counter db sid) ++
            "_" ++ pyUpper (resolveType meta.ev_type_choice p.name))).evidence_code =
        fmtDate8 srow.started_at ++ "_" ++ padNum 4 (next_evidence_counter db sid) ++
          "_" ++ pyUpper (resolveType meta.ev_type_choice p.name)) := by
  refine ⟨by simp [evidence_code_for, h, next_evidence_counter], rfl, ?_, ?_, ?_⟩
  · intro row hrow
    simp [next_evidence_counter, DB.insertEvidence, List.filter_append,
      List.filter_cons, beq_iff_eq, hrow]
  · intro row hrow
    simp [next_evidence_counter, DB.insertEvidence, List.filter_append,
      List.filter_cons, beq_iff_eq, hrow]
  · intro p meta now hreg hcopy
    constructor
    · simp [ingest_paths, ingestLoop, hreg, hcopy, evidence_code_for, h]
    · rfl

/-- Witness for C1: in a fresh session, a first AUTO-ingested `clip.MP4`
gets the code built from the session's start date, counter 0001 and type
VIDEO. -/
theorem C1_evidence_code_witness :
    evidence_code_for exDB exSid "Video" = some "20260102_0001_VIDEO" ∧
    ingest_paths exDB exLater exSid [exClipFile] exMeta = Except.ok
      (exDB.insertEvidence
        (mkEvidenceRow exLater exSid exMeta exClipFile "20260102_0001_VIDEO"), 1) := by
  have h := C1_evidence_code exDB exSid "Video" exSessionRow (by rfl)
  constructor
  · rw [h.1]; rfl
  · have h2 := (h.2.2.2.2 exClipFile exMeta exLater (by rfl) (by rfl)).1
    rw [h2]; rfl

/-- C5: over a batch whose session exists, ingestion never surfaces an
exception: it returns normally with a count equal to the number of files
that are existing regular files and whose byte copy succeeded (one of the
two copy attempts), each such file adding exactly one evidence row;
references that resolve to nothing and files whose copy fails are skipped
silently, adding no row and only lowering the count, and no other table
is touched. -/
theorem C5_ingest_batch (db : DB) (now : DateTime) (sid : String)
    (files : List FileRef) (meta : IngestMeta) (srow : SessionRow)
    (h : db.sessions.find? (fun r => r.session_id == sid) = some srow) :
    ∃ db', ingest_paths db now sid files meta = Except.ok (db',
        (files.filter (fun p => p.isRegularFile && copySucceeds p)).length) ∧
      db'.evidence.length = db.evidence.length +
        (files.filter (fun p => p.isRegularFile && copySucceeds p)).length ∧
      db'.sessions = db.sessions ∧ db'.events = db.events ∧ db'.logs = db.logs ∧
      db'.equipment_log = db.equipment_log ∧ db'.tracker = db.tracker := by
  obtain ⟨db', heq, hrest⟩ := ingestLoop_ok files db 0 now sid meta srow h
  exact ⟨db', by simpa [ingest_paths] using heq, hrest⟩

/-- Witness for C5: a batch of one good file, one missing reference and
one file whose both copy attempts fail ingests exactly one file and adds
exactly one evidence row. -/
theorem C5_ingest_batch_witness :
    ∃ db', ingest_paths exDB exLater exSid [exClipFile, exGhostFile, exBadCopyFile]
        exMeta = Except.ok (db', 1) ∧ db'.evidence.length = 1 := by
  obtain ⟨db', heq, hlen, _⟩ := C5_ingest_batch exDB exLater exSid
    [exClipFile, exGhostFile, exBadCopyFile] exMeta exSessionRow (by rfl)
  exact ⟨db', heq.trans (by rfl), hlen.trans (by rfl)⟩

/-- C2 (amended): both timeline merges sort the concatenated input
(events appended first, then notes) by the creation-timestamp string
compared lexicographically, with a stable sort: each merge is a
permutation of the input, ordered by timestamp in its direction, and for
every timestamp value the entries carrying it appear in exactly the input
order (events before notes) in BOTH merges; consequently the descending
merge (live review) is the exact reverse of the ascending merge (report)
whenever all timestamps are distinct — but not for tied timestamps, where
both merges keep the tie in input order instead of reversing it. -/
theorem C2_timeline_merge (events nts : List TEntry) :
    List.Perm (mergeTimelineAsc events nts) (events ++ nts) ∧
    List.Perm (mergeTimelineDesc events nts) (events ++ nts) ∧
    (mergeTimelineAsc events nts).Pairwise (fun a b => a.ts.data ≤ b.ts.data) ∧
    (mergeTimelineDesc events nts).Pairwise (fun a b => b.ts.data ≤ a.ts.data) ∧
    (∀ t, (mergeTimelineAsc events nts).filter (fun x => x.ts == t) =
      (events ++ nts).filter (fun x => x.ts == t)) ∧
    (∀ t, (mergeTimelineDesc events nts).filter (fun x => x.ts == t) =
      (events ++ nts).filter (fun x => x.ts == t)) ∧
    ((events ++ nts).Pairwise (fun a b => a.ts ≠ b.ts) →
      mergeTimelineDesc events nts = (mergeTimelineAsc events nts).reverse) := by
  refine ⟨List.perm_insertionSort _ _, List.perm_insertionSort _ _, ?_, ?_, ?_, ?_, ?_⟩
  · exact List.sorted_insertionSort (keyLE TEntry.ts) (events ++ nts)
  · exact List.sorted_insertionSort (keyGE TEntry.ts) (events ++ nts)
  · intro t
    exact filter_key_insertionSort TEntry.ts (keyLE TEntry.ts)
      (fun a b => keyLE_not_imp_ne TEntry.ts a b) (events ++ nts) t
  · intro t
    exact filter_key_insertionSort TEntry.ts (keyGE TEntry.ts)
      (fun a b => keyGE_not_imp_ne TEntry.ts a b) (events ++ nts) t
  · intro hd
    exact sortByKeyDesc_eq_reverse TEntry.ts (events ++ nts) hd

/-- Counterexample to C2 as stated: one event and one note sharing a
timestamp.  Both merges keep the input order (event before note), so the
descending merge is not the reverse of the ascending merge. -/
theorem C2_timeline_merge_counterexample :
    mergeTimelineAsc [exTieEvent] [exTieNote] = [exTieEvent, exTieNote] ∧
    mergeTimelineDesc [exTieEvent] [exTieNote] = [exTieEvent, exTieNote] ∧
    mergeTimelineDesc [exTieEvent] [exTieNote] ≠
      (mergeTimelineAsc [exTieEvent] [exTieNote]).reverse := by
  exact ⟨by decide, by decide, by decide⟩

/-- Witness for C2 at distinct timestamps: the descending merge is the
exact reverse, and the tied-filter stability instantiates concretely. -/
theorem C2_timeline_merge_witness :
    mergeTimelineDesc [exEarlyEvent] [exLateNote] =
      (mergeTimelineAsc [exEarlyEvent] [exLateNote]).reverse ∧
    (mergeTimelineAsc [exEarlyEvent] [exLateNote]).filter
        (fun x => x.ts == "2026-01-02 20:00:00") =
      ([exEarlyEvent] ++ [exLateNote]).filter
        (fun x => x.ts == "2026-01-02 20:00:00") := by
  have h := C2_timeline_merge [exEarlyEvent] [exLateNote]
  exact ⟨h.2.2.2.2.2.2 (by decide), h.2.2.2.2.1 "2026-01-02 20:00:00"⟩

/-- Counterexample to C6 as stated: generating the report for an existing
session with zero events, notes, evidence, equipment-log rows and tracker
rows succeeds, but the Timeline section header is immediately followed by
the next section header — the code draws no `none logged`-style
placeholder for an empty timeline (the other three sections do get
one). -/
theorem C6_empty_report_counterexample :
    generate_pdf_report exStateEmpty exSid = Except.ok
      (⟨exDB, sessionFolderDirs exSid,
        [(reportPathOf exSid, exEmptyReportItems)]⟩, reportPathOf exSid) ∧
    exEmptyReportItems[5]? = some (ReportItem.title "Timeline (Events + Notes)") ∧
    exEmptyReportItems[6]? = some (ReportItem.title "Evidence List") := by
  exact ⟨by rfl, by rfl, by rfl⟩

/-- C6 (amended): on an existing session with zero events, notes,
evidence, equipment-log and tracker rows, report generation succeeds
without raising and produces the header block followed by all four
section titles in order, with explicit placeholder lines after Evidence
List, Equipment Usage and Investigator Tracker; the Timeline header is
followed directly by the Evidence List header, with no placeholder
line. -/
theorem C6_empty_session_report (st : AppState) (sid : String) (srow : SessionRow)
    (hfind : st.db.sessions.find? (fun r => r.session_id == sid) = some srow)
    (hev : st.db.events.filter (fun r => r.session_id == sid) = [])
    (hlg : st.db.logs.filter (fun r => r.session_id == sid) = [])
    (hevd : st.db.evidence.filter (fun r => r.session_id == sid) = [])
    (heqp : st.db.equipment_log.filter (fun r => r.session_id == sid) = [])
    (htr : st.db.tracker.filter (fun r => r.session_id == sid) = []) :
    generate_pdf_report st sid = Except.ok
      ({ st with
          dirs := st.dirs ++ sessionFolderDirs sid,
          reports := st.reports ++ [(reportPathOf sid,
            [ReportItem.line "Investigation Report Draft",
             ReportItem.line ("Session ID: " ++ sid),
             ReportItem.line ("Started: " ++ fmt_ts srow.started_at),
             ReportItem.line ("Ended: " ++ ((srow.ended_at.map fmt_ts).getD "—")),
             ReportItem.line ("Location: " ++ (srow.location.getD "—")),
             ReportItem.title "Timeline (Events + Notes)",
             ReportItem.title "Evidence List",
             ReportItem.line "No evidence logged.",
             ReportItem.title "Equipment Usage",
             ReportItem.line "No equipment activity logged.",
             ReportItem.title "Investigator Tracker",
             ReportItem.line "No tracker entries."])] }, reportPathOf sid) := by
  simp [generate_pdf_report, hfind, hev, hlg, hevd, heqp, htr, sortByKey,
    mergeTimelineAsc]

/-- Witness for C6: the amended statement instantiated at the concrete
empty session. -/
theorem C6_empty_session_report_witness :
    generate_pdf_report exStateEmpty exSid = Except.ok
      (⟨exDB, sessionFolderDirs exSid,
        [(reportPathOf exSid, exEmptyReportItems)]⟩, reportPathOf exSid) := by
  have h := C6_empty_session_report exStateEmpty exSid exSessionRow
    (by rfl) rfl rfl rfl rfl rfl
  rw [h]; rfl

/-- C7 (amended): the stored name of every ingested file is
`safe_filename` of the evidence code followed by the original extension,
where `safe_filename` strips the ends, replaces each maximal run of
characters outside alphanumerics/`_`/`-`/`.`/space with a single `_`,
collapses whitespace runs to single `_`, and truncates to 180 characters;
in particular no stored name ever contains a space or a `#`. -/
theorem C7_sanitization (db : DB) (now : DateTime) (sid : String) (meta : IngestMeta)
    (p : FileRef) (srow : SessionRow)
    (hfind : db.sessions.find? (fun r => r.session_id == sid) = some srow)
    (hreg : p.isRegularFile = true) (hcopy : copySucceeds p = true) :
    (∃ row : EvidenceRow,
      ingest_paths db now sid [p] meta = Except.ok (db.insertEvidence row, 1) ∧
      row.stored_name =
        safe_filename (row.evidence_code ++ String.join (pathSuffixes p.name)) ∧
      ' ' ∉ row.stored_name.data ∧ '#' ∉ row.stored_name.data) ∧
    (∀ s : String, ' ' ∉ (safe_filename s).data ∧ '#' ∉ (safe_filename s).data) := by
  refine ⟨⟨mkEvidenceRow now sid meta p
      (fmtDate8 srow.started_at ++ "_" ++ padNum 4 (next_evidence_counter db sid) ++
        "_" ++ pyUpper (resolveType meta.ev_type_choice p.name)), ?_, rfl,
      (safe_filename_no_space_no_hash _).1, (safe_filename_no_space_no_hash _).2⟩,
    safe_filename_no_space_no_hash⟩
  simp [ingest_paths, ingestLoop, hreg, hcopy, evidence_code_for, hfind]

/-- Counterexample to C7 as stated: the first substitution replaces each
maximal RUN of characters outside `[\w\-. ]` with one `_`, not each
character.  Ingesting `x.c##1` (a run of two `#` inside the extension)
stores `20260102_0001_OTHER.c_1`, while the claimed per-character
replacement would produce `20260102_0001_OTHER.c__1`. -/
theorem C7_sanitization_counterexample :
    safe_filename "20260102_0001_OTHER.c##1" = "20260102_0001_OTHER.c_1" ∧
    specSanitize "20260102_0001_OTHER.c##1" = "20260102_0001_OTHER.c__1" ∧
    safe_filename "20260102_0001_OTHER.c##1" ≠
      specSanitize "20260102_0001_OTHER.c##1" ∧
    (ingest_paths exDB exLater exSid [exHashFile] exMeta).toOption.map
        (fun x => x.1.evidence.map (fun e => e.stored_name)) =
      some ["20260102_0001_OTHER.c_1"] := by
  exact ⟨by decide, by decide, by decide, by decide⟩

/-- Witness for C7: the amended statement instantiated at the `x.c##1`
ingest — the stored name carries neither a space nor a `#`. -/
theorem C7_sanitization_witness :
    ∃ row : EvidenceRow,
      ingest_paths exDB exLater exSid [exHashFile] exMeta =
        Except.ok (exDB.insertEvidence row, 1) ∧
      ' ' ∉ row.stored_name.data ∧ '#' ∉ row.stored_name.data := by
  obtain ⟨⟨row, heq, _, hsp, hh⟩, _⟩ := C7_sanitization exDB exLater exSid exMeta
    exHashFile exSessionRow (by rfl) (by rfl) (by rfl)
  exact ⟨row, heq, hsp, hh⟩

/-- C9: report generation raises the session-not-found error exactly when
no session row exists, and in that case (the lookup preceding every
filesystem touch) the machine state is returned unchanged — no directory
created, no report written, no store rows changed; when the session
exists it returns the deterministic report path and never modifies the
record store. -/
theorem C9_report_session_lookup (st : AppState) (sid : String) :
    ((st.db.sessions.find? (fun r => r.session_id == sid) = none) →
      generate_pdf_report st sid = Except.error "Session not found." ∧
      runGenerateReport st sid = (st, none)) ∧
    (∀ srow, st.db.sessions.find? (fun r => r.session_id == sid) = some srow →
      ∃ st2, generate_pdf_report st sid = Except.ok (st2, reportPathOf sid) ∧
        runGenerateReport st sid = (st2, some (reportPathOf sid)) ∧
        st2.db = st.db) := by
  constructor
  · intro hn
    have h1 : generate_pdf_report st sid = Except.error "Session not found." := by
      simp [generate_pdf_report, hn]
    exact ⟨h1, by simp [runGenerateReport, h1]⟩
  · intro srow hs
    simp only [generate_pdf_report, runGenerateReport, hs]
    exact ⟨_, rfl, rfl, rfl⟩

/-- Witness for C9: lookup over an empty store leaves the state unchanged
with no path; over the one-session store a path is produced. -/
theorem C9_report_session_lookup_witness :
    (runGenerateReport ⟨exDB0, [], []⟩ exSid = (⟨exDB0, [], []⟩, none)) ∧
    (∃ st2, runGenerateReport exStateEmpty exSid = (st2, some (reportPathOf exSid))) := by
  have h1 := (C9_report_session_lookup ⟨exDB0, [], []⟩ exSid).1 (by rfl)
  have h2 := (C9_report_session_lookup exStateEmpty exSid).2 exSessionRow (by rfl)
  obtain ⟨st2, _, hrun, _⟩ := h2
  exact ⟨h1.2, ⟨st2, hrun⟩⟩

end Basecamp
